/-
Verification of the chat-backend orchestration core (`src/server.ts` and
`src/api/chat.js`) against its natural-language specification.

Strings from the TypeScript source are modelled as `List Char` (`Str`).
JavaScript truthiness on optional strings (`x || d`, `if (x)`) is modelled
explicitly: `none` and `some ""` are falsy.  Regular-expression operations
used by the source (`split(/\[NEXT\]|\n\n+/)`, `match(/\[sticker:(.*?)\]/)`,
`match(/\[生图:\s*(.*?)\]/)`, `replace(/^\[.*?\]:?\s*/, '')`, …) are
translated into explicit recursive scanners with the same leftmost-match,
lazy-quantifier, dot-excludes-newline semantics.  Timestamps are Unix
milliseconds modelled as `Int` (the source stores ISO strings of
`Date.now() + offset`; the ISO encoding is order-preserving).
-/
import Mathlib

/-- Strings of the TypeScript source, modelled as character lists. -/
abbrev Str := List Char

/-- ASCII whitespace as used by JavaScript `trim` / `\s` (the JS class also
contains rarer code points not produced by this program). -/
def isWsChar (c : Char) : Bool :=
  c = ' ' || c = '\t' || c = '\n' || c = '\r'

/-- `isPre p l` : `p` is a prefix of `l` (JS `startsWith`, used to build the
substring scanners below). -/
def isPre : Str → Str → Bool
  | [], _ => true
  | _ :: _, [] => false
  | a :: as, b :: bs => a = b && isPre as bs

/-- `containsTok p l` : `p` occurs as a contiguous substring of `l`
(JS `String.prototype.includes`). -/
def containsTok (p : Str) : Str → Bool
  | [] => isPre p []
  | c :: rest => isPre p (c :: rest) || containsTok p rest

/-- Number of (non-overlapping, left-to-right) occurrences of the literal
token `[NEXT]` in a string; since `[NEXT]` cannot overlap itself this is
the plain occurrence count. -/
def countNextTok : Str → Nat
  | '[' :: 'N' :: 'E' :: 'X' :: 'T' :: ']' :: rest => countNextTok rest + 1
  | _ :: rest => countNextTok rest
  | [] => 0

/-- JS `String.prototype.trim`. -/
def jsTrim (l : Str) : Str :=
  ((l.dropWhile isWsChar).reverse.dropWhile isWsChar).reverse

/-- JS truthiness of an optional string: `undefined`/`null` and `""` are
falsy. -/
def jsTruthy (o : Option String) : Bool :=
  match o with
  | some s => s ≠ ""
  | none => false

/-- JS `x || d` for an optional string `x` and default `d`. -/
def jsOrStr (o : Option String) (d : String) : String :=
  match o with
  | some s => if s = "" then d else s
  | none => d

/-- Worker for `splitMsg`, the translation of
`dialogue.split(/\[NEXT\]|\n\n+/)` (src/server.ts:598).  The regex engine
scans left to right; at each position the alternation first tries the
literal `[NEXT]`, then a greedy run of two or more newlines.  The greedy
`\n\n+` is realised by the `skip` flag: after a `\n\n` separator all
further consecutive newlines are consumed into the same separator. -/
def splitNextAux : Bool → Str → Str → List Str
  | _, acc, [] => [acc]
  | true, acc, '\n' :: rest => splitNextAux true acc rest
  | _, acc, '[' :: 'N' :: 'E' :: 'X' :: 'T' :: ']' :: rest => acc :: splitNextAux false [] rest
  | _, acc, '\n' :: '\n' :: rest => acc :: splitNextAux true [] rest
  | _, acc, c :: rest => splitNextAux false (acc ++ [c]) rest

/-- `dialogue.split(/\[NEXT\]|\n\n+/)` (src/server.ts:598). -/
def splitMsg (l : Str) : List Str := splitNextAux false [] l

/-- `text.split('|||')` (src/server.ts:592). -/
def splitTriBar (acc : Str) : Str → List Str
  | [] => [acc]
  | '|' :: '|' :: '|' :: rest => acc :: splitTriBar [] rest
  | c :: rest => splitTriBar (acc ++ [c]) rest

/-- Scan for the first `]`, as the lazy `(.*?)\]` does after a directive
opener: `.` does not match a newline, so a newline before any `]` makes the
whole candidate match fail (`none`). -/
def takeUntilRB : Str → Option (Str × Str)
  | [] => none
  | ']' :: rest => some ([], rest)
  | '\n' :: _ => none
  | c :: rest => (takeUntilRB rest).map (fun pr => (c :: pr.1, pr.2))

/-- Leftmost match of `tok(.*?)]` (lazy body, no newline in the body), as in
`partText.match(/\[sticker:(.*?)\]/)` and `replace(/\[sticker:.*?\]/, '')`
(src/server.ts:644,650) and `replace(/\[生图:.*?\]/, '')` (src/server.ts:634).
Returns `(text before the match, captured body, text after the match)`.
If a candidate start has no closing `]` before a newline, the regex engine
retries from the next position. -/
def scanDir (tok : Str) : Str → Option (Str × Str × Str)
  | [] => none
  | c :: rest =>
    if isPre tok (c :: rest) then
      match takeUntilRB ((c :: rest).drop tok.length) with
      | some pr => some ([], pr.1, pr.2)
      | none => (scanDir tok rest).map (fun x => (c :: x.1, x.2.1, x.2.2))
    else (scanDir tok rest).map (fun x => (c :: x.1, x.2.1, x.2.2))

/-- The literal `[sticker:` opener. -/
def stTok : Str := "[sticker:".toList

/-- The literal `[生图:` opener. -/
def imgTok : Str := "[生图:".toList

/-- The literal `[NEXT]` separator. -/
def nextTokL : Str := "[NEXT]".toList

/-- The two-newline paragraph separator. -/
def nl2Tok : Str := ['\n', '\n']

/-- Leftmost match of `\[生图:\s*(.*?)\]` (src/server.ts:625): after the
opener a greedy whitespace run, then the lazy newline-free body up to `]`. -/
def scanImgDir : Str → Option (Str × Str × Str)
  | [] => none
  | c :: rest =>
    if isPre imgTok (c :: rest) then
      match takeUntilRB (((c :: rest).drop imgTok.length).dropWhile isWsChar) with
      | some pr => some ([], pr.1, pr.2)
      | none => (scanImgDir rest).map (fun x => (c :: x.1, x.2.1, x.2.2))
    else (scanImgDir rest).map (fun x => (c :: x.1, x.2.1, x.2.2))

/-- `partText.replace(/\[生图:.*?\]/, '')` (src/server.ts:634): remove the
first lazy `[生图:…]` region (note: unlike the *extraction* regex this one
has no `\s*`, exactly as in the source). -/
def stripImgFirst (l : Str) : Str :=
  match scanDir imgTok l with
  | some x => x.1 ++ x.2.2
  | none => l

/-- Drop one leading `:` (the `:?` of the cleanup regexes). -/
def dropColon : Str → Str
  | ':' :: rest => rest
  | l => l

/-- `text.replace(/^\[.*?\]:?\s*/, '')` (src/server.ts:585): strip a leading
bracketed self-identification prefix. -/
def stripLeadBracket (l : Str) : Str :=
  match l with
  | '[' :: rest =>
    match takeUntilRB rest with
    | some pr => (dropColon pr.2).dropWhile isWsChar
    | none => l
  | _ => l

/-- ``text.replace(new RegExp(`^${responder.name}:?\\s*`), '')``
(src/server.ts:585): strip a leading literal echo of the responder's name. -/
def stripLeadName (nm : Str) (l : Str) : Str :=
  if isPre nm l then (dropColon (l.drop nm.length)).dropWhile isWsChar
  else l

/-- A row of the `stickers` table (src/db.ts): `id`, `owner_id`, `url`.
The chat parser's lookup `SELECT url FROM stickers WHERE id = ?`
(src/server.ts:647) searches this whole table by primary key. -/
structure Sticker where
  id : Str
  owner : String
  url : Str
deriving DecidableEq

/-- One persistable unit of an AI reply as pushed onto `responses`
(src/server.ts:607,662,680,698): the message type (`narration`, `text`,
`image` or `sticker`), the sending responder's id, the content, and the
synthetic timestamp in Unix milliseconds. -/
structure Fragment where
  ftype : String
  sender : String
  content : Str
  timestamp : Int
deriving DecidableEq

/-- A character row as needed by the responder loop: id and name. -/
structure GChar where
  id : String
  name : Str
deriving DecidableEq

/-- `SELECT url FROM stickers WHERE id = ?` (src/server.ts:647): primary-key
lookup over the whole stickers table, regardless of owner. -/
def stickerById (table : List Sticker) (sid : Str) : Option Str :=
  (table.find? (fun s => s.id == sid)).map (fun s => s.url)

/-- Processing of one dialogue part, src/server.ts:618-708.  `table` is the
stickers table, `imgKey` models `settings.image_api_key ||
process.env.GEMINI_API_KEY` being truthy, `imgGen` is the image-generation
call (`some url` on success, `none` when it throws; the error is only
logged).  Emits, in source order: the text fragment (if any text remains),
the image fragment (if generated), the sticker fragment (if resolved),
with timestamps `now + i*500`, `now + i*500 + 100`, `now + i*500 + 200`. -/
def processPart (table : List Sticker) (imgKey : Bool) (imgGen : Str → Option Str)
    (now : Int) (rid : String) (i : Nat) (p : Str) : List Fragment :=
  let partText := jsTrim p
  if partText = [] then []
  else
    let st1 :=
      if containsTok imgTok partText then
        match scanImgDir partText with
        | some x =>
          if imgKey then
            match imgGen x.2.1 with
            | some url => (jsTrim (stripImgFirst partText), some url)
            | none => (partText, (none : Option Str))
          else (partText, none)
        | none => (partText, none)
      else (partText, none)
    let st2 :=
      if containsTok stTok st1.1 then
        match scanDir stTok st1.1 with
        | some x =>
          match stickerById table x.2.1 with
          | some url => (jsTrim (x.1 ++ x.2.2), some url)
          | none => (st1.1, (none : Option Str))
        | none => (st1.1, none)
      else (st1.1, none)
    (if st2.1 ≠ [] then [⟨"text", rid, st2.1, now + (i : Int) * 500⟩] else [])
      ++ (match st1.2 with
          | some u => [⟨"image", rid, u, now + (i : Int) * 500 + 100⟩]
          | none => [])
      ++ (match st2.2 with
          | some u => [⟨"sticker", rid, u, now + (i : Int) * 500 + 200⟩]
          | none => [])

/-- Parsing and persisting of one responder's raw model output,
src/server.ts:584-708: leading-prefix cleanup, scenario `|||` split,
`[NEXT]`/blank-line split, then per-part directive handling.  The narration
fragment (scenario mode only) gets timestamp `now - 500`. -/
def respondOne (table : List Sticker) (imgKey : Bool) (imgGen : Str → Option Str)
    (now : Int) (r : GChar) (mode : String) (raw : Str) : List Fragment :=
  let text := stripLeadName r.name (stripLeadBracket raw)
  let sc :=
    if mode = "scenario" ∧ containsTok ['|', '|', '|'] text then
      let ps := splitTriBar [] text
      (jsTrim (ps.headD []), jsTrim ((ps.drop 1).headD []))
    else ([], text)
  let narration := sc.1
  let dialogue := sc.2
  let parts := (splitMsg dialogue).filter (fun p => !(jsTrim p).isEmpty)
  (if narration ≠ [] then [⟨"narration", r.id, narration, now - 500⟩] else [])
    ++ (parts.enum.map (fun q => processPart table imgKey imgGen now r.id q.1 q.2)).flatten

/-- Errors raised by the chat-completion adapter. -/
inductive GenErr where
  | http (status : Nat) (message : String)
  | parse (message : String)
  | jsType
deriving DecidableEq

/-- The per-responder generation loop of `POST /api/chat`
(src/server.ts:426-715): each responder's body runs inside its own
`try { … } catch (err) { console.error(err) }`, so a responder whose
generation throws appends nothing to `responses` and the loop continues.
`gen` models the provider call (`generateWithOpenAI` / Gemini) for one
responder. -/
def chatTurnFragments (table : List Sticker) (imgKey : Bool) (imgGen : Str → Option Str)
    (now : Int) (mode : String) (gen : GChar → Except GenErr String)
    (rs : List GChar) : List Fragment :=
  rs.foldl
    (fun acc r =>
      match gen r with
      | .ok t => acc ++ respondOne table imgKey imgGen now r mode t.toList
      | .error _ => acc) []

/-- The HTTP result of `POST /api/chat`: `res.json(responses)` at
src/server.ts:717 always answers status 200 with the accumulated
fragments. -/
def chatTurnResponse (table : List Sticker) (imgKey : Bool) (imgGen : Str → Option Str)
    (now : Int) (mode : String) (gen : GChar → Except GenErr String)
    (rs : List GChar) : Nat × List Fragment :=
  (200, chatTurnFragments table imgKey imgGen now mode gen rs)

/-- Responder resolution, src/server.ts:377-421.  `shuffled`/`cnt` model the
random shuffle and the random count `Math.floor(Math.random()*2)+1` of the
`natural` fallback; they are irrelevant to the other branches. -/
def resolveResponders (isGroup : Bool) (replyMode : Option String)
    (replyStrategy : Option String) (self : GChar) (members : List GChar)
    (content : Str) (shuffled : List GChar) (cnt : Nat) : List GChar :=
  if isGroup then
    if 0 < members.length then
      let mode := jsOrStr replyMode "natural"
      if mode = "all" then members
      else if mode = "mentioned" then
        members.foldl (fun acc m => if containsTok ('@' :: m.name) content then acc ++ [m] else acc) []
      else
        let mentioned :=
          members.foldl (fun acc m => if containsTok ('@' :: m.name) content then acc ++ [m] else acc) []
        if mentioned.length = 0 then shuffled.take cnt else mentioned
    else []
  else if replyStrategy = some "manual" then [] else [self]

/-- Abstraction of `JSON.parse` applied to an error body: the `error` field,
if present, with its optional `message`, optional `code`, and its
`JSON.stringify` rendering. -/
structure ErrObj where
  message : Option String
  code : Option String
  stringified : String
deriving DecidableEq

/-- Parsed JSON error body: optional `error` object and optional top-level
`message`. -/
structure ErrJson where
  errorField : Option ErrObj
  messageField : Option String
deriving DecidableEq

/-- A non-success HTTP response body: the raw text (`await response.text()`)
and the result of `JSON.parse` on it (`none` when parsing throws). -/
structure ErrBody where
  raw : String
  parsed : Option ErrJson
deriving DecidableEq

/-- Error-message extraction of `generateWithOpenAI` (src/server.ts:31-40):
`error.message || JSON.stringify(error)` when an `error` field exists, else
the top-level `message` if truthy, else the raw body text. -/
def extractChatErr (b : ErrBody) : String :=
  match b.parsed with
  | none => b.raw
  | some j =>
    match j.errorField with
    | some e =>
      (match e.message with
       | some m => if m = "" then e.stringified else m
       | none => e.stringified)
    | none =>
      match j.messageField with
      | some m => if m = "" then b.raw else m
      | none => b.raw

/-- `choices[0].message` content holder of a success body. -/
structure ChatChoiceMsg where
  content : Option String
deriving DecidableEq

/-- One entry of `data.choices`; `message` may be absent. -/
structure ChatChoice where
  message : Option ChatChoiceMsg
deriving DecidableEq

/-- A parsed success body: `choices` may be absent (`none`), and entries may
be JSON `null` (`none` elements). -/
structure ChatData where
  choices : Option (List (Option ChatChoice))
deriving DecidableEq

/-- The two outcomes of the `fetch` in `generateWithOpenAI`. -/
inductive ChatResp where
  | httpError (status : Nat) (body : ErrBody)
  | success (data : ChatData)
deriving DecidableEq

/-- `generateWithOpenAI` (src/server.ts:13-49), from the point where the
HTTP response is available.  On `!response.ok` it throws
`[HTTP ${status}] ${errorMessage}`.  On success it throws the parse error
only when `choices` is missing/empty or `choices[0]` is null; reading
`.content` of a missing `message` throws a TypeError (`jsType`); otherwise
it returns `choices[0].message.content` as-is — even `undefined` (`none`)
or the empty string. -/
def generateWithOpenAI (resp : ChatResp) : Except GenErr (Option String) :=
  match resp with
  | .httpError s b => .error (.http s ("[HTTP " ++ toString s ++ "] " ++ extractChatErr b))
  | .success d =>
    match d.choices with
    | none => .error (.parse "API 响应格式错误: 缺少 choices")
    | some [] => .error (.parse "API 响应格式错误: 缺少 choices")
    | some (none :: _) => .error (.parse "API 响应格式错误: 缺少 choices")
    | some (some c :: _) =>
      match c.message with
      | none => .error .jsType
      | some m => .ok m.content

/-- One request body tried by `generateImageWithOpenAI`
(src/server.ts:98-102). -/
structure ImgBody where
  model : String
  prompt : String
  n : Nat
  size : Option String
  respFmt : Option String
deriving DecidableEq

/-- The three progressively looser bodies, in the order tried
(src/server.ts:98-102): with size, without size, minimal. -/
def imgBodies (model prompt : String) : List ImgBody :=
  [⟨model, prompt, 1, some "1024x1024", some "b64_json"⟩,
   ⟨model, prompt, 1, none, some "b64_json"⟩,
   ⟨model, prompt, 1, none, none⟩]

/-- `data.data[0]` of a successful image response: optional `b64_json` and
optional `url` fields. -/
structure ImgData where
  b64_json : Option String
  url : Option String
deriving DecidableEq

/-- Outcome of one image-generation fetch: HTTP success carrying
`data.data[0]` when present, a non-success status with its body text, or a
thrown exception whose message is stored in `lastError`. -/
inductive ImgResp where
  | success (payload : Option ImgData)
  | httpError (status : Nat) (body : ErrBody)
  | thrown (body : ErrBody)
deriving DecidableEq

/-- The user-actionable hint substituted for a known "bad response status"
signature (src/server.ts:142). -/
def badRespHint (model : String) : String :=
  "上游服务器错误 (Bad Response). 请确保模型名称 \"" ++ model ++ "\" 正确，且 API Key 余额充足并支持生图。"

/-- Best-effort error decoding at the end of `generateImageWithOpenAI`
(src/server.ts:136-145): `lastError || "未知错误"`, then, if the body parses
to JSON with an `error` field, `error.message || JSON.stringify(error)`,
special-casing the `bad_response_status_code` / `openai_error` signature. -/
def decodeImgError (model : String) (lastError : Option ErrBody) : String :=
  let base :=
    match lastError with
    | some b => if b.raw = "" then "未知错误" else b.raw
    | none => "未知错误"
  match lastError with
  | none => base
  | some b =>
    match b.parsed with
    | none => base
    | some j =>
      match j.errorField with
      | none => base
      | some e =>
        let m :=
          match e.message with
          | some s => if s = "" then e.stringified else s
          | none => e.stringified
        if e.code = some "bad_response_status_code" ∨ containsTok "openai_error".toList m.toList
        then badRespHint model
        else m

/-- The body-variant loop of `generateImageWithOpenAI` (src/server.ts:107-147)
threading `lastError`/`lastStatus`.  Besides the adapter's result it returns
the list of bodies actually sent (one fetch per loop iteration), so that
"stops trying further variants" is observable.  An HTTP success whose
payload carries no extractable image falls through to the next variant
without touching `lastError`/`lastStatus`; a 401/404 breaks out of the loop
to the final `throw`. -/
def genImgLoop (respond : ImgBody → ImgResp) (model : String) :
    List ImgBody → Option ErrBody → Nat → Except String String × List ImgBody
  | [], le, ls => (.error ("[HTTP " ++ toString ls ++ "] " ++ decodeImgError model le), [])
  | b :: rest, le, ls =>
    match respond b with
    | .success payload =>
      match payload with
      | some d =>
        if jsTruthy d.b64_json then (.ok ("data:image/png;base64," ++ d.b64_json.getD ""), [b])
        else if jsTruthy d.url then (.ok (d.url.getD ""), [b])
        else
          let r := genImgLoop respond model rest le ls
          (r.1, b :: r.2)
      | none =>
        let r := genImgLoop respond model rest le ls
        (r.1, b :: r.2)
    | .httpError s body =>
      if s = 401 ∨ s = 404 then
        (.error ("[HTTP " ++ toString s ++ "] " ++ decodeImgError model (some body)), [b])
      else
        let r := genImgLoop respond model rest (some body) s
        (r.1, b :: r.2)
    | .thrown body =>
      let r := genImgLoop respond model rest (some body) ls
      (r.1, b :: r.2)

/-- `generateImageWithOpenAI` (src/server.ts:94-148), abstracted over the
network (`respond`), started with `lastError = null`, `lastStatus = 0`. -/
def generateImageWithOpenAI (respond : ImgBody → ImgResp) (model prompt : String) :
    Except String String × List ImgBody :=
  genImgLoop respond model (imgBodies model prompt) none 0

/-- A history row as used by the prompt builders: `sender_id` and
`content`. -/
structure HMsg where
  sender : String
  content : String
deriving DecidableEq

/-- The grounding note injected for an incoming image
(src/server.ts:514,572). -/
def visionNote (d : String) : String :=
  "[User sent an image. Description: " ++ d ++ "]"

/-- Scenario-mode injection (src/server.ts:476-481 and 534-539): when mode
is `scenario` and a description is given, the *last* history entry — if it
is a user turn — gets the action/context prefixed onto its content. -/
def scenarioInject (mode : String) (description : Option String)
    (msgs : List (String × String)) : List (String × String) :=
  if mode = "scenario" ∧ jsTruthy description then
    match msgs.getLast? with
    | some lm =>
      if lm.1 = "user" then
        msgs.dropLast ++ [(lm.1, "(Action/Context: " ++ description.getD "" ++ ") " ++ lm.2)]
      else msgs
    | none => msgs
  else msgs

/-- The `messages` array sent on the OpenAI-compatible chat path
(src/server.ts:470-517) as `(role, content)` pairs: the reversed history
mapped to `user`/`assistant`, the scenario injection, then — when a vision
description exists — an appended `system`-role note (line 513-515), and
finally the system prompt unshifted to the front (line 517).  `history` is
in the fetched most-recent-first order. -/
def openaiMessages (history : List HMsg) (mode : String) (description : Option String)
    (systemPrompt : String) (imageDescription : String) : List (String × String) :=
  let msgs := history.reverse.map
    (fun m => (if m.sender = "user" then "user" else "assistant", m.content))
  let msgs := scenarioInject mode description msgs
  let msgs :=
    if imageDescription ≠ "" then msgs ++ [("system", visionNote imageDescription)]
    else msgs
  ("system", systemPrompt) :: msgs

/-- The `contents` array sent on the native (Gemini) path
(src/server.ts:528-573) as `(role, text)` pairs: the reversed history mapped
to `user`/`model`, the scenario injection, then — when a vision description
exists — an appended history turn with role `user` (line 570-573).  The
persona instruction travels separately as `config.systemInstruction`
(line 579) and does not carry the description. -/
def geminiContents (history : List HMsg) (mode : String) (description : Option String)
    (imageDescription : String) : List (String × String) :=
  let msgs := history.reverse.map
    (fun m => (if m.sender = "user" then "user" else "model", m.content))
  let msgs := scenarioInject mode description msgs
  if imageDescription ≠ "" then msgs ++ [("user", visionNote imageDescription)]
  else msgs

/-- A candidate character row for the proactive trigger
(src/server.ts:731-774): its reply strategy, its relationship-to-user
label, and the timestamp (ms) of its most recent message, `none` when the
chat has no messages at all. -/
structure TrigChar where
  id : String
  replyStrategy : Option String
  relationship : Option String
  lastMsg : Option Int
deriving DecidableEq

/-- Required quiet interval in milliseconds, src/server.ts:734-750:
`active` → 10 s, `passive` → 600 s, otherwise 30 s when the lower-cased
relationship label contains an affectionate keyword, 300 s when it contains
`stranger`, else 60 s. -/
def requiredInterval (strategy : String) (relationship : Option String) : Int :=
  if strategy = "active" then 10000
  else if strategy = "passive" then 600000
  else
    let rel := (jsOrStr relationship "").toList.map Char.toLower
    if containsTok "lover".toList rel ∨ containsTok "partner".toList rel
        ∨ containsTok "wife".toList rel ∨ containsTok "husband".toList rel then 30000
    else if containsTok "stranger".toList rel then 300000
    else 60000

/-- Strategy-weighted selection probability (src/server.ts:763-765):
0.8 for `active`, 0.2 for `passive`, 0.5 otherwise. -/
def chanceOf (strategy : String) : ℚ :=
  if strategy = "active" then mkRat 4 5
  else if strategy = "passive" then mkRat 1 5
  else mkRat 1 2

/-- The candidate loop of `POST /api/trigger-message`
(src/server.ts:731-774) over the already shuffled candidate list.  `rand`
is the stream of `Math.random()` draws, consumed (index `k`) only when the
elapsed-time check passes.  A candidate with no message history is selected
immediately; otherwise it is selected only when `now - lastTime >
requiredInterval` and the coin succeeds; the loop stops at the first
selection. -/
def selectTrigger (now : Int) (rand : Nat → ℚ) (k : Nat) : List TrigChar → Option TrigChar
  | [] => none
  | c :: rest =>
    let strategy := jsOrStr c.replyStrategy "normal"
    let interval := requiredInterval strategy c.relationship
    match c.lastMsg with
    | none => some c
    | some t =>
      if now - t > interval then
        if rand k < chanceOf strategy then some c
        else selectTrigger now rand (k + 1) rest
      else selectTrigger now rand k rest

/-- The request shape of the proxy handler (src/api/chat.js). -/
structure ProxyReq where
  method : String
  platform : Option String
  apiKey : Option String
  model : Option String
  messages : Option (List (String × String))
  apiUrl : Option String
  action : Option String

/-- Outcome of the proxy handler: either a terminal JSON response (no
outbound network traffic) or a forward to `targetUrl` — `forwardRequest`
(src/api/chat.js:74) is the only place a `fetch` happens. -/
inductive ProxyOutcome where
  | respond (status : Nat)
  | forward (url : String) (method : String)
deriving DecidableEq

/-- The proxy `handler` of src/api/chat.js:1-71, up to the point where a
request is forwarded.  `!apiKey` / `!model` treat the empty string as
missing; `!messages` is false for any present array (even empty). -/
def chatProxyHandler (req : ProxyReq) : ProxyOutcome :=
  if req.method = "OPTIONS" then .respond 200
  else if req.method ≠ "POST" then .respond 405
  else if ¬ jsTruthy req.apiKey then .respond 400
  else if req.action = some "fetchModels" ∨ req.action = some "testConnection" then
    if req.platform ≠ some "custom-openai" ∨ ¬ jsTruthy req.apiUrl then .respond 400
    else .forward ((req.apiUrl.getD "") ++ "/models") "GET"
  else if ¬ jsTruthy req.model ∨ req.messages = none then .respond 400
  else if req.platform = some "custom-openai" then
    if ¬ jsTruthy req.apiUrl then .respond 400
    else .forward ((req.apiUrl.getD "") ++ "/chat/completions") "POST"
  else if req.platform = some "openai" then
    .forward "https://api.openai.com/v1/chat/completions" "POST"
  else if req.platform = some "doubao" then
    .forward "https://ark.cn-beijing.volces.com/api/v3/chat/completions" "POST"
  else if req.platform = some "deepseek" then
    .forward "https://api.deepseek.com/chat/completions" "POST"
  else if req.platform = some "openrouter" then
    .forward "https://openrouter.ai/api/v1/chat/completions" "POST"
  else .respond 400

/-- The request body of `POST /api/settings` (src/server.ts:186-191):
each field is `none` when the JSON field is `undefined`. -/
structure SettingsBody where
  chat_api_url : Option String
  chat_api_key : Option String
  chat_model : Option String
  vision_api_url : Option String
  vision_api_key : Option String
  vision_model : Option String
  image_api_url : Option String
  image_api_key : Option String
  image_model : Option String
  user_name : Option String
  user_gender : Option String
  user_bio : Option String
  user_avatar : Option String
  user_background : Option String

/-- The settings keys paired with their request-body fields, in the order
the handler checks them (src/server.ts:193-206). -/
def settingsFields (b : SettingsBody) : List (String × Option String) :=
  [("chat_api_url", b.chat_api_url), ("chat_api_key", b.chat_api_key),
   ("chat_model", b.chat_model), ("vision_api_url", b.vision_api_url),
   ("vision_api_key", b.vision_api_key), ("vision_model", b.vision_model),
   ("image_api_url", b.image_api_url), ("image_api_key", b.image_api_key),
   ("image_model", b.image_model), ("user_name", b.user_name),
   ("user_gender", b.user_gender), ("user_bio", b.user_bio),
   ("user_avatar", b.user_avatar), ("user_background", b.user_background)]

/-- The `(key, value)` pairs actually executed by
`INSERT OR REPLACE INTO settings` — exactly the defined fields, in check
order. -/
def settingsEntries (b : SettingsBody) : List (String × String) :=
  (settingsFields b).filterMap (fun p => p.2.map (fun v => (p.1, v)))

/-- `INSERT OR REPLACE INTO settings (key, value)` on a keyed store. -/
def upsert (st : String → Option String) (k : String) (v : String) :
    String → Option String :=
  fun q => if q = k then some v else st q

/-- The full effect of `POST /api/settings` (src/server.ts:185-208) on the
settings store. -/
def applySettings (b : SettingsBody) (st : String → Option String) :
    String → Option String :=
  (settingsEntries b).foldl (fun s p => upsert s p.1 p.2) st

/-- Helper: a fold that conditionally pushes elements equals `filter`. -/
theorem foldl_push_filter {α : Type} (p : α → Bool) :
    ∀ (l : List α) (acc : List α),
      l.foldl (fun a x => if p x then a ++ [x] else a) acc = acc ++ l.filter p := by
  intro l
  induction l with
  | nil => intro acc; simp
  | cons x xs ih =>
    intro acc
    by_cases h : p x
    · simp [List.foldl_cons, h, ih]
    · simp [List.foldl_cons, h, ih]

/-- Helper: membership in the filtered-key list after an upsert fold is
untouched for keys not written. -/
theorem foldl_upsert_not_mem :
    ∀ (entries : List (String × String)) (st : String → Option String) (k : String),
      k ∉ entries.map Prod.fst →
      entries.foldl (fun s p => upsert s p.1 p.2) st k = st k := by
  intro entries
  induction entries with
  | nil => intro st k _; rfl
  | cons e rest ih =>
    intro st k hk
    simp only [List.map_cons, List.mem_cons] at hk
    push_neg at hk
    simp only [List.foldl_cons]
    rw [ih _ _ hk.2]
    simp [upsert, hk.1]

/-- Helper: when all keys are distinct, an upsert fold maps each written key
to its written value. -/
theorem foldl_upsert_mem :
    ∀ (entries : List (String × String)) (st : String → Option String) (k : String) (v : String),
      (entries.map Prod.fst).Nodup → (k, v) ∈ entries →
      entries.foldl (fun s p => upsert s p.1 p.2) st k = some v := by
  intro entries
  induction entries with
  | nil => intro st k v _ h; simp at h
  | cons e rest ih =>
    intro st k v hnd hmem
    simp only [List.map_cons, List.nodup_cons] at hnd
    simp only [List.foldl_cons]
    rcases List.mem_cons.mp hmem with heq | hmem'
    · subst heq
      rw [foldl_upsert_not_mem _ _ _ hnd.1]
      simp [upsert]
    · exact ih _ _ _ hnd.2 hmem'

/-- Helper: the written keys form a sublist of the field keys. -/
theorem filterMapKeys_sublist (l : List (String × Option String)) :
    ((l.filterMap (fun p => p.2.map (fun v => (p.1, v)))).map Prod.fst).Sublist
      (l.map Prod.fst) := by
  induction l with
  | nil => simp
  | cons x xs ih =>
    cases hx : x.2 with
    | none =>
      rw [List.filterMap_cons, hx]
      simp only [Option.map_none', List.map_cons]
      exact ih.cons _
    | some v =>
      rw [List.filterMap_cons, hx]
      simp only [Option.map_some', List.map_cons]
      exact ih.cons₂ _

/-- Helper: keys of `settingsEntries` are distinct. -/
theorem settingsEntries_keys_nodup (b : SettingsBody) :
    ((settingsEntries b).map Prod.fst).Nodup := by
  have h := filterMapKeys_sublist (settingsFields b)
  have h2 : ((settingsFields b).map Prod.fst).Nodup := by
    simp [settingsFields]
  exact List.Sublist.nodup h h2

/-- Claim C10: `POST /api/settings` writes exactly the settings keys whose
request-body fields are defined (replace-on-conflict with the given value),
and every key not named by a defined field keeps its previous value. -/
theorem c10_settings_frame (b : SettingsBody) (st : String → Option String)
    (k : String) (v : String) :
    ((k, v) ∈ settingsEntries b → applySettings b st k = some v) ∧
    (k ∉ (settingsEntries b).map Prod.fst → applySettings b st k = st k) := by
  constructor
  · intro hmem
    exact foldl_upsert_mem _ _ _ _ (settingsEntries_keys_nodup b) hmem
  · intro hnot
    exact foldl_upsert_not_mem _ _ _ hnot

/-- Witness for C10 at a concrete body and store: the defined `chat_model`
field is written, an unrelated key keeps its old value. -/
theorem c10_settings_frame_witness :
    applySettings ⟨none, none, some "gpt-4o", none, none, none, none, none, none,
      none, none, none, none, none⟩
      (fun q => if q = "user_name" then some "老王" else none) "chat_model" = some "gpt-4o" ∧
    applySettings ⟨none, none, some "gpt-4o", none, none, none, none, none, none,
      none, none, none, none, none⟩
      (fun q => if q = "user_name" then some "老王" else none) "user_name" = some "老王" := by
  refine ⟨(c10_settings_frame _ _ "chat_model" "gpt-4o").1 (by decide), ?_⟩
  have h := (c10_settings_frame
    ⟨none, none, some "gpt-4o", none, none, none, none, none, none,
      none, none, none, none, none⟩
    (fun q => if q = "user_name" then some "老王" else none) "user_name" "").2 (by decide)
  simpa using h

/-- Claim C9: in the chat proxy handler, a missing (JS-falsy) API key — and,
for a send-message request (no `fetchModels`/`testConnection` action), a
missing model or messages field — yields the HTTP 400 response, which by
construction of `ProxyOutcome.respond` happens before any outbound network
call. -/
theorem c9_proxy_validation (req : ProxyReq) (hmethod : req.method = "POST") :
    (jsTruthy req.apiKey = false → chatProxyHandler req = .respond 400) ∧
    (req.action ≠ some "fetchModels" → req.action ≠ some "testConnection" →
      jsTruthy req.model = false ∨ req.messages = none →
      chatProxyHandler req = .respond 400) := by
  constructor
  · intro hkey
    simp [chatProxyHandler, hmethod, hkey]
  · intro ha1 ha2 hmm
    by_cases hkey : jsTruthy req.apiKey
    · have hact : ¬ (req.action = some "fetchModels" ∨ req.action = some "testConnection") := by
        rintro (h | h) <;> [exact ha1 h; exact ha2 h]
      have hmm' : ¬ ¬ (jsTruthy req.model = false ∨ req.messages = none) := not_not_intro hmm
      rcases hmm with h | h
      · simp [chatProxyHandler, hmethod, hkey, hact, h]
      · simp [chatProxyHandler, hmethod, hkey, hact, h]
    · simp [chatProxyHandler, hmethod, jsTruthy] at *
      simp [chatProxyHandler, hmethod, hkey]

/-- Witness for C9: a keyless POST and a model-less POST both rejected with
status 400. -/
theorem c9_proxy_validation_witness :
    chatProxyHandler ⟨"POST", some "openai", none, some "gpt-4o", some [], none, none⟩
      = .respond 400 ∧
    chatProxyHandler ⟨"POST", some "openai", some "sk-1", none, some [], none, none⟩
      = .respond 400 := by
  constructor
  · exact (c9_proxy_validation _ rfl).1 (by decide)
  · exact (c9_proxy_validation _ rfl).2 (by decide) (by decide) (Or.inl (by decide))

/-- Claim C2: for a group chat in `mentioned` reply mode, the responder list
is exactly the members whose literal `@name` appears as a (case-sensitive)
substring of the inbound text, in member iteration order. -/
theorem c2_mentioned_responders (replyMode replyStrategy : Option String)
    (self : GChar) (members : List GChar) (content : Str)
    (shuffled : List GChar) (cnt : Nat)
    (hmode : jsOrStr replyMode "natural" = "mentioned") :
    resolveResponders true replyMode replyStrategy self members content shuffled cnt
      = members.filter (fun m => containsTok ('@' :: m.name) content) ∧
    ∀ m, m ∈ resolveResponders true replyMode replyStrategy self members content shuffled cnt
      ↔ m ∈ members ∧ containsTok ('@' :: m.name) content = true := by
  have hres : resolveResponders true replyMode replyStrategy self members content shuffled cnt
      = members.filter (fun m => containsTok ('@' :: m.name) content) := by
    cases members with
    | nil => simp [resolveResponders]
    | cons x xs =>
      have hstep : resolveResponders true replyMode replyStrategy self (x :: xs) content shuffled cnt
          = (x :: xs).foldl
              (fun acc m => if containsTok ('@' :: m.name) content then acc ++ [m] else acc) [] := by
        simp [resolveResponders, hmode]
      rw [hstep]
      exact foldl_push_filter _ _ []
  refine ⟨hres, fun m => ?_⟩
  rw [hres]
  simp [List.mem_filter]

/-- Witness for C2: in a two-member group, only the member mentioned with
`@Bob` responds. -/
theorem c2_mentioned_responders_witness :
    resolveResponders true (some "mentioned") none ⟨"g", "G".toList⟩
      [⟨"1", "Ann".toList⟩, ⟨"2", "Bob".toList⟩] "hi @Bob!".toList [] 1
      = [⟨"2", "Bob".toList⟩] := by
  rw [(c2_mentioned_responders (some "mentioned") none ⟨"g", "G".toList⟩
    [⟨"1", "Ann".toList⟩, ⟨"2", "Bob".toList⟩] "hi @Bob!".toList [] 1 (by decide)).1]
  decide

/-- Helper: the chat-turn fold is the concatenation of each responder's
contribution (empty for a responder whose generation threw). -/
theorem chatTurnFragments_eq_join (table : List Sticker) (imgKey : Bool)
    (imgGen : Str → Option Str) (now : Int) (mode : String)
    (gen : GChar → Except GenErr String) :
    ∀ (rs : List GChar) (acc : List Fragment),
      rs.foldl
        (fun acc r =>
          match gen r with
          | .ok t => acc ++ respondOne table imgKey imgGen now r mode t.toList
          | .error _ => acc) acc
      = acc ++ (rs.map
          (fun r =>
            match gen r with
            | .ok t => respondOne table imgKey imgGen now r mode t.toList
            | .error _ => [])).flatten := by
  intro rs
  induction rs with
  | nil => intro acc; simp
  | cons r rest ih =>
    intro acc
    simp only [List.foldl_cons, List.map_cons, List.flatten_cons]
    cases hg : gen r with
    | ok t => rw [ih]; simp
    | error e => rw [ih]; simp

/-- Claim C1: in `POST /api/chat`, each responder's fragments are appended
only when its generation succeeds; a responder whose generation throws is
only logged and contributes nothing, while all other responders' fragments
are still returned, and the turn always answers HTTP 200. -/
theorem c1_responder_error_isolated (table : List Sticker) (imgKey : Bool)
    (imgGen : Str → Option Str) (now : Int) (mode : String)
    (gen : GChar → Except GenErr String) (rs : List GChar) :
    chatTurnFragments table imgKey imgGen now mode gen rs
      = (rs.map
          (fun r =>
            match gen r with
            | .ok t => respondOne table imgKey imgGen now r mode t.toList
            | .error _ => [])).flatten ∧
    (chatTurnResponse table imgKey imgGen now mode gen rs).1 = 200 ∧
    (∀ (rs₁ : List GChar) (r₀ : GChar) (rs₂ : List GChar) (e : GenErr),
      gen r₀ = .error e →
      chatTurnFragments table imgKey imgGen now mode gen (rs₁ ++ r₀ :: rs₂)
        = chatTurnFragments table imgKey imgGen now mode gen rs₁
          ++ chatTurnFragments table imgKey imgGen now mode gen rs₂) := by
  refine ⟨?_, rfl, ?_⟩
  · have h := chatTurnFragments_eq_join table imgKey imgGen now mode gen rs []
    simpa [chatTurnFragments] using h
  · intro rs₁ r₀ rs₂ e he
    have h1 := chatTurnFragments_eq_join table imgKey imgGen now mode gen (rs₁ ++ r₀ :: rs₂) []
    have h2 := chatTurnFragments_eq_join table imgKey imgGen now mode gen rs₁ []
    have h3 := chatTurnFragments_eq_join table imgKey imgGen now mode gen rs₂ []
    simp only [chatTurnFragments]
    rw [h1, h2, h3]
    simp [he]

/-- Witness for C1: with a generator that throws an upstream HTTP error for
the middle responder, the turn returns exactly the flanking responders'
fragments. -/
theorem c1_responder_error_isolated_witness :
    chatTurnFragments [] false (fun _ => none) 0 "chat"
      (fun r => if r.id = "b" then .error (.http 404 "[HTTP 404] not found") else .ok "嗯")
      [⟨"a", "Ann".toList⟩, ⟨"b", "Bob".toList⟩, ⟨"c", "Cyn".toList⟩]
      = chatTurnFragments [] false (fun _ => none) 0 "chat"
          (fun r => if r.id = "b" then .error (.http 404 "[HTTP 404] not found") else .ok "嗯")
          [⟨"a", "Ann".toList⟩]
        ++ chatTurnFragments [] false (fun _ => none) 0 "chat"
            (fun r => if r.id = "b" then .error (.http 404 "[HTTP 404] not found") else .ok "嗯")
            [⟨"c", "Cyn".toList⟩] := by
  exact (c1_responder_error_isolated [] false (fun _ => none) 0 "chat" _ []).2.2
    [⟨"a", "Ann".toList⟩] ⟨"b", "Bob".toList⟩ [⟨"c", "Cyn".toList⟩]
    (.http 404 "[HTTP 404] not found") rfl

/-- Counterexample to C4: on an HTTP-success body whose
`choices[0].message.content` is the empty string (or absent), the adapter
does *not* raise a parse error — it returns the empty (resp. absent)
content. -/
theorem c4_counterexample :
    generateWithOpenAI (.success ⟨some [some ⟨some ⟨some ""⟩⟩]⟩) = .ok (some "") ∧
    generateWithOpenAI (.success ⟨some [some ⟨some ⟨none⟩⟩]⟩) = .ok none := by
  exact ⟨rfl, rfl⟩

/-- Claim C4 (amended): on a non-success HTTP status the adapter raises an
error whose message is `[HTTP <status>] ` followed by the extracted message
(`error.message` when truthy, else `JSON.stringify(error)` when an `error`
field exists, else a truthy top-level `message`, else the raw body text).
On HTTP success it raises the parse error only when `choices` is missing or
empty (or its first entry is null); when `choices[0].message` exists it
returns `choices[0].message.content` exactly — even when empty or absent. -/
theorem c4_adapter_amended :
    (∀ (s : Nat) (b : ErrBody),
      generateWithOpenAI (.httpError s b)
        = .error (.http s ("[HTTP " ++ toString s ++ "] " ++ extractChatErr b))) ∧
    (∀ (raw : String) (c : Option String) (st : String) (mf m : Option String), m ≠ some "" →
      extractChatErr ⟨raw, some ⟨some ⟨m, c, st⟩, mf⟩⟩ = (match m with | some s => s | none => st)) ∧
    (∀ (raw c st mf : String),
      extractChatErr ⟨raw, some ⟨some ⟨some "", some c, st⟩, some mf⟩⟩ = st) ∧
    (∀ (raw : String) (m : String), m ≠ "" →
      extractChatErr ⟨raw, some ⟨none, some m⟩⟩ = m) ∧
    (∀ (raw : String), extractChatErr ⟨raw, none⟩ = raw ∧ extractChatErr ⟨raw, some ⟨none, none⟩⟩ = raw) ∧
    (generateWithOpenAI (.success ⟨none⟩) = .error (.parse "API 响应格式错误: 缺少 choices") ∧
     generateWithOpenAI (.success ⟨some []⟩) = .error (.parse "API 响应格式错误: 缺少 choices")) ∧
    (∀ (cm : ChatChoiceMsg) (rest : List (Option ChatChoice)),
      generateWithOpenAI (.success ⟨some (some ⟨some cm⟩ :: rest)⟩) = .ok cm.content) := by
  refine ⟨fun s b => rfl, ?_, fun raw c st mf => by simp [extractChatErr], ?_,
    fun raw => ⟨rfl, rfl⟩, ⟨rfl, rfl⟩, fun cm rest => rfl⟩
  · intro raw c st mf m hm
    cases m with
    | none => simp [extractChatErr]
    | some s =>
      have hs : s ≠ "" := fun h => hm (by rw [h])
      simp [extractChatErr, hs]
  · intro raw m hm
    simp [extractChatErr, hm]

/-- Witness for C4 (amended) at concrete responses: a 404 with a JSON error
body produces the tagged message, and a well-formed success returns its
content verbatim. -/
theorem c4_adapter_amended_witness :
    generateWithOpenAI (.httpError 404
        ⟨"\x7b\"error\":\x7b\"message\":\"no route\"\x7d\x7d",
         some ⟨some ⟨some "no route", none, "\x7b\x7d"⟩, none⟩⟩)
      = .error (.http 404 "[HTTP 404] no route") ∧
    generateWithOpenAI (.success ⟨some [some ⟨some ⟨some "你好"⟩⟩]⟩) = .ok (some "你好") := by
  constructor
  · have h1 := c4_adapter_amended.1 404
      ⟨"\x7b\"error\":\x7b\"message\":\"no route\"\x7d\x7d", some ⟨some ⟨some "no route", none, "\x7b\x7d"⟩, none⟩⟩
    have h2 := c4_adapter_amended.2.1 "\x7b\"error\":\x7b\"message\":\"no route\"\x7d\x7d" none "\x7b\x7d" none
      (some "no route") (by decide)
    rw [h1, h2]; rfl
  · exact c4_adapter_amended.2.2.2.2.2.2 ⟨some "你好"⟩ []

/-- Counterexample to C5: on the native (Gemini) path the vision description
is appended as a `user`-role history turn, not as a system-role note — with
an empty history the whole contents array is that single `user` entry and
no system-role entry exists. -/
theorem c5_counterexample :
    geminiContents [] "chat" none "一只猫"
      = [("user", "[User sent an image. Description: 一只猫]")] ∧
    ("system", "[User sent an image. Description: 一只猫]") ∉ geminiContents [] "chat" none "一只猫" := by
  constructor
  · rfl
  · intro h
    rw [show geminiContents [] "chat" none "一只猫"
        = [("user", "[User sent an image. Description: 一只猫]")] from rfl] at h
    simp at h

/-- Claim C5 (amended): whenever a vision description was produced, it is
included in the prompt before generation on both provider paths — appended
as the final `user`-role history turn on the native (Gemini) path, and as a
`system`-role entry appended after the history on the OpenAI-compatible
path. -/
theorem c5_vision_note_amended (history : List HMsg) (mode : String)
    (description : Option String) (systemPrompt : String) (d : String)
    (hd : d ≠ "") :
    ("system", visionNote d) ∈ openaiMessages history mode description systemPrompt d ∧
    (geminiContents history mode description d).getLast? = some ("user", visionNote d) := by
  constructor
  · simp only [openaiMessages, if_pos hd]
    exact List.mem_cons_of_mem _ (List.mem_append_right _ (List.mem_singleton.mpr rfl))
  · simp only [geminiContents, if_pos hd]
    exact List.getLast?_concat _

/-- Witness for C5 (amended) at a concrete turn with one history message. -/
theorem c5_vision_note_amended_witness :
    ("system", visionNote "一只猫")
      ∈ openaiMessages [⟨"user", "看"⟩] "chat" none "prompt" "一只猫" ∧
    (geminiContents [⟨"user", "看"⟩] "chat" none "一只猫").getLast?
      = some ("user", visionNote "一只猫") := by
  exact c5_vision_note_amended [⟨"user", "看"⟩] "chat" none "prompt" "一只猫" (by decide)

/-- Counterexample to C6: with a first variant answering HTTP success but an
empty payload and a second variant answering success with both image
fields, the adapter sends *two* requests — it does not stop at the first
HTTP success — and returns the base64 data-URI of the second. -/
theorem c6_counterexample :
    (let respond : ImgBody → ImgResp := fun b =>
      if b.size.isSome then .success none
      else if b.respFmt.isSome then .success (some ⟨some "QUJD", some "http://host/i.png"⟩)
      else .success none
     (generateImageWithOpenAI respond "m1" "a cat").2.length = 2 ∧
     generateImageWithOpenAI respond "m1" "a cat"
       = (.ok "data:image/png;base64,QUJD",
          [⟨"m1", "a cat", 1, some "1024x1024", some "b64_json"⟩,
           ⟨"m1", "a cat", 1, none, some "b64_json"⟩]) ∧
     respond ⟨"m1", "a cat", 1, some "1024x1024", some "b64_json"⟩ = .success none) := by
  exact ⟨rfl, rfl, rfl⟩

/-- Claim C6 (amended): the adapter tries the three bodies (with size,
without size, minimal) in order and stops at the first variant whose
HTTP-success payload carries an extractable image — preferring the base64
field over the hosted URL; an HTTP success with no extractable payload
falls through to the next variant; a 401 or 404 stops the loop with no
further variants attempted; and on exhaustion it raises an error carrying
the last HTTP status and the best-effort decoded message. -/
theorem c6_image_variants_amended :
    (∀ model prompt : String,
      imgBodies model prompt
        = [⟨model, prompt, 1, some "1024x1024", some "b64_json"⟩,
           ⟨model, prompt, 1, none, some "b64_json"⟩,
           ⟨model, prompt, 1, none, none⟩]) ∧
    (∀ (respond : ImgBody → ImgResp) (model : String) (b : ImgBody) (rest : List ImgBody)
        (le : Option ErrBody) (ls : Nat) (d : ImgData),
      respond b = .success (some d) → jsTruthy d.b64_json = true →
      genImgLoop respond model (b :: rest) le ls
        = (.ok ("data:image/png;base64," ++ d.b64_json.getD ""), [b])) ∧
    (∀ (respond : ImgBody → ImgResp) (model : String) (b : ImgBody) (rest : List ImgBody)
        (le : Option ErrBody) (ls : Nat) (d : ImgData),
      respond b = .success (some d) → jsTruthy d.b64_json = false → jsTruthy d.url = true →
      genImgLoop respond model (b :: rest) le ls = (.ok (d.url.getD ""), [b])) ∧
    (∀ (respond : ImgBody → ImgResp) (model : String) (b : ImgBody) (rest : List ImgBody)
        (le : Option ErrBody) (ls : Nat) (s : Nat) (body : ErrBody),
      respond b = .httpError s body → s = 401 ∨ s = 404 →
      genImgLoop respond model (b :: rest) le ls
        = (.error ("[HTTP " ++ toString s ++ "] " ++ decodeImgError model (some body)), [b])) ∧
    (∀ (respond : ImgBody → ImgResp) (model : String) (b : ImgBody) (rest : List ImgBody)
        (le : Option ErrBody) (ls : Nat),
      respond b = .success none →
      genImgLoop respond model (b :: rest) le ls
        = ((genImgLoop respond model rest le ls).1, b :: (genImgLoop respond model rest le ls).2)) ∧
    (∀ (respond : ImgBody → ImgResp) (model : String) (le : Option ErrBody) (ls : Nat),
      genImgLoop respond model [] le ls
        = (.error ("[HTTP " ++ toString ls ++ "] " ++ decodeImgError model le), [])) := by
  refine ⟨fun model prompt => rfl, ?_, ?_, ?_, ?_, fun respond model le ls => rfl⟩
  · intro respond model b rest le ls d hb h64
    simp [genImgLoop, hb, h64]
  · intro respond model b rest le ls d hb h64 hurl
    simp [genImgLoop, hb, h64, hurl]
  · intro respond model b rest le ls s body hb hs
    simp [genImgLoop, hb, hs]
  · intro respond model b rest le ls hb
    simp [genImgLoop, hb]

/-- Witness for C6 (amended) at concrete responses: a first-variant base64
success returns immediately with a single request, a 401 first variant
stops with the decoded error, a success-without-payload first variant falls
through. -/
theorem c6_image_variants_amended_witness :
    genImgLoop (fun _ => .success (some ⟨some "QUJD", some "http://u"⟩)) "m"
        (imgBodies "m" "p") none 0
      = (.ok "data:image/png;base64,QUJD", [⟨"m", "p", 1, some "1024x1024", some "b64_json"⟩]) ∧
    genImgLoop (fun _ => .httpError 401 ⟨"denied", none⟩) "m" (imgBodies "m" "p") none 0
      = (.error ("[HTTP 401] " ++ decodeImgError "m" (some ⟨"denied", none⟩)),
         [⟨"m", "p", 1, some "1024x1024", some "b64_json"⟩]) ∧
    genImgLoop (fun _ => .success none) "m" [⟨"m", "p", 1, none, none⟩] none 7
      = ((genImgLoop (fun _ => .success none) "m" [] none 7).1,
         ⟨"m", "p", 1, none, none⟩ :: (genImgLoop (fun _ => .success none) "m" [] none 7).2) := by
  refine ⟨?_, ?_, ?_⟩
  · have h := c6_image_variants_amended.2.1 (fun _ => .success (some ⟨some "QUJD", some "http://u"⟩))
      "m" ⟨"m", "p", 1, some "1024x1024", some "b64_json"⟩
      [⟨"m", "p", 1, none, some "b64_json"⟩, ⟨"m", "p", 1, none, none⟩] none 0
      ⟨some "QUJD", some "http://u"⟩ rfl (by decide)
    simpa [imgBodies] using h
  · have h := c6_image_variants_amended.2.2.2.1 (fun _ => .httpError 401 ⟨"denied", none⟩)
      "m" ⟨"m", "p", 1, some "1024x1024", some "b64_json"⟩
      [⟨"m", "p", 1, none, some "b64_json"⟩, ⟨"m", "p", 1, none, none⟩] none 0 401
      ⟨"denied", none⟩ rfl (Or.inl rfl)
    simpa [imgBodies] using h
  · exact c6_image_variants_amended.2.2.2.2.1 (fun _ => .success none) "m"
      ⟨"m", "p", 1, none, none⟩ [] none 7 rfl

/-- Helper: any character selected by the trigger loop is a listed candidate
that either has no prior message or passed both the quiet-interval check
and some coin draw. -/
theorem selectTrigger_sound (now : Int) (rand : Nat → ℚ) :
    ∀ (l : List TrigChar) (k : Nat) (c : TrigChar),
      selectTrigger now rand k l = some c →
      c ∈ l ∧
      (c.lastMsg = none ∨
        ∃ t j, c.lastMsg = some t ∧
          now - t > requiredInterval (jsOrStr c.replyStrategy "normal") c.relationship ∧
          rand j < chanceOf (jsOrStr c.replyStrategy "normal")) := by
  intro l
  induction l with
  | nil => intro k c h; simp [selectTrigger] at h
  | cons x rest ih =>
    intro k c h
    simp only [selectTrigger] at h
    cases hl : x.lastMsg with
    | none =>
      rw [hl] at h
      cases h
      exact ⟨List.mem_cons_self _ _, Or.inl hl⟩
    | some t =>
      simp only [hl] at h
      by_cases htime : now - t > requiredInterval (jsOrStr x.replyStrategy "normal") x.relationship
      · rw [if_pos htime] at h
        by_cases hcoin : rand k < chanceOf (jsOrStr x.replyStrategy "normal")
        · rw [if_pos hcoin] at h
          cases h
          exact ⟨List.mem_cons_self _ _, Or.inr ⟨t, k, hl, htime, hcoin⟩⟩
        · rw [if_neg hcoin] at h
          have := ih (k + 1) c h
          exact ⟨List.mem_cons_of_mem _ this.1, this.2⟩
      · rw [if_neg htime] at h
        have := ih k c h
        exact ⟨List.mem_cons_of_mem _ this.1, this.2⟩

/-- Claim C7: the proactive-trigger policy — interval table (10 s active,
600 s passive; for other strategies 30 s with an affectionate keyword,
300 s with `stranger`, else 60 s), immediate selection of a candidate with
no prior message, selection otherwise only after the interval elapsed and a
strategy-weighted coin (0.8/0.2/0.5) succeeded, never selecting a
`normal`-strategy keyword-free candidate whose last message is 5 s old, and
stopping at the first selection. -/
theorem c7_trigger_policy (now : Int) (rand : Nat → ℚ) :
    (∀ rel, requiredInterval "active" rel = 10000) ∧
    (∀ rel, requiredInterval "passive" rel = 600000) ∧
    (∀ rel,
      requiredInterval "normal" rel =
        (let r := (jsOrStr rel "").toList.map Char.toLower
         if containsTok "lover".toList r ∨ containsTok "partner".toList r
             ∨ containsTok "wife".toList r ∨ containsTok "husband".toList r then 30000
         else if containsTok "stranger".toList r then 300000
         else 60000)) ∧
    (∀ (c : TrigChar) (rest : List TrigChar) (k : Nat),
      c.lastMsg = none → selectTrigger now rand k (c :: rest) = some c) ∧
    (∀ (l : List TrigChar) (k : Nat) (c : TrigChar),
      selectTrigger now rand k l = some c →
      c.lastMsg = none ∨
        ∃ t j, c.lastMsg = some t ∧
          now - t > requiredInterval (jsOrStr c.replyStrategy "normal") c.relationship ∧
          rand j < chanceOf (jsOrStr c.replyStrategy "normal")) ∧
    (∀ (l : List TrigChar) (k : Nat) (c : TrigChar) (t : Int),
      c.replyStrategy = some "normal" → c.lastMsg = some t → now - t = 5000 →
      requiredInterval "normal" c.relationship = 60000 →
      selectTrigger now rand k l ≠ some c) ∧
    (∀ (c : TrigChar) (rest : List TrigChar) (k : Nat) (t : Int),
      c.lastMsg = some t →
      now - t > requiredInterval (jsOrStr c.replyStrategy "normal") c.relationship →
      rand k < chanceOf (jsOrStr c.replyStrategy "normal") →
      selectTrigger now rand k (c :: rest) = some c) := by
  refine ⟨fun rel => rfl, fun rel => rfl, fun rel => rfl, ?_, ?_, ?_, ?_⟩
  · intro c rest k hl
    simp [selectTrigger, hl]
  · intro l k c h
    exact (selectTrigger_sound now rand l k c h).2
  · intro l k c t hstrat hl htime hint h
    rcases (selectTrigger_sound now rand l k c h).2 with hnone | ⟨t', j, hl', hgt, _⟩
    · rw [hl] at hnone; cases hnone
    · rw [hl] at hl'
      cases hl'
      rw [show jsOrStr c.replyStrategy "normal" = "normal" from by rw [hstrat]; rfl] at hgt
      rw [hint] at hgt
      omega
  · intro c rest k t hl htime hcoin
    simp [selectTrigger, hl, htime, hcoin]

/-- Witness for C7 at concrete data: a fresh chat is selected immediately; a
`normal` keyword-free character 5 s after its last message is skipped even
with a winning coin; a due `active` character with a winning coin is
selected first. -/
theorem c7_trigger_policy_witness :
    selectTrigger 100000 (fun _ => 0) 0 [⟨"a", some "normal", some "Friend", none⟩]
      = some ⟨"a", some "normal", some "Friend", none⟩ ∧
    selectTrigger 100000 (fun _ => 0) 0
        [⟨"b", some "normal", some "Friend", some 95000⟩]
      ≠ some ⟨"b", some "normal", some "Friend", some 95000⟩ ∧
    selectTrigger 100000 (fun _ => 0) 0
        [⟨"c", some "active", some "Friend", some 50000⟩, ⟨"d", none, none, none⟩]
      = some ⟨"c", some "active", some "Friend", some 50000⟩ := by
  refine ⟨?_, ?_, ?_⟩
  · exact (c7_trigger_policy 100000 (fun _ => 0)).2.2.2.1 _ [] 0 rfl
  · exact (c7_trigger_policy 100000 (fun _ => 0)).2.2.2.2.2.1 _ 0 _ 95000 rfl rfl (by norm_num)
      (by decide)
  · exact (c7_trigger_policy 100000 (fun _ => 0)).2.2.2.2.2.2 _ [⟨"d", none, none, none⟩] 0 50000
      rfl (by decide) (by decide)

/-- Helper: a prefix stays a prefix under appending on the right. -/
theorem isPre_append (p l t : Str) (h : isPre p l = true) : isPre p (l ++ t) = true := by
  induction p generalizing l with
  | nil => rfl
  | cons a as ih =>
    cases l with
    | nil => cases h
    | cons b bs =>
      simp only [isPre, Bool.and_eq_true, decide_eq_true_eq] at h
      simp only [List.cons_append, isPre, Bool.and_eq_true, decide_eq_true_eq]
      exact ⟨h.1, ih bs h.2⟩

/-- Helper: a substring occurrence survives appending on the right. -/
theorem containsTok_append_right (p l t : Str) (h : containsTok p l = true) :
    containsTok p (l ++ t) = true := by
  induction l with
  | nil =>
    simp only [containsTok] at h
    cases p with
    | nil => cases t <;> simp [containsTok, isPre]
    | cons a as => cases h
  | cons c rest ih =>
    simp only [containsTok, Bool.or_eq_true] at h
    rcases h with h | h
    · simp only [List.cons_append, containsTok, Bool.or_eq_true]
      exact Or.inl (by simpa using isPre_append p (c :: rest) t h)
    · simp only [List.cons_append, containsTok, Bool.or_eq_true]
      exact Or.inr (ih h)

/-- Helper: no substring occurrence in a list means none in its tail. -/
theorem containsTok_cons_false (p : Str) (c : Char) (l : Str)
    (h : containsTok p (c :: l) = false) : containsTok p l = false := by
  simp only [containsTok, Bool.or_eq_false_iff] at h
  exact h.2

/-- Helper: no substring occurrence survives `dropWhile`. -/
theorem containsTok_dropWhile_false (p : Str) (q : Char → Bool) :
    ∀ (l : Str), containsTok p l = false → containsTok p (l.dropWhile q) = false := by
  intro l
  induction l with
  | nil => intro h; simpa using h
  | cons c rest ih =>
    intro h
    by_cases hq : q c
    · rw [List.dropWhile_cons_of_pos hq]
      exact ih (containsTok_cons_false p c rest h)
    · rwa [List.dropWhile_cons_of_neg hq]

/-- Helper: `dropWhile` is a suffix. -/
theorem exists_append_dropWhile (q : Char → Bool) :
    ∀ (l : Str), ∃ s, s ++ l.dropWhile q = l := by
  intro l
  induction l with
  | nil => exact ⟨[], rfl⟩
  | cons c rest ih =>
    by_cases hq : q c
    · rcases ih with ⟨s, hs⟩
      exact ⟨c :: s, by simp [List.dropWhile_cons_of_pos hq, hs]⟩
    · exact ⟨[], by simp [List.dropWhile_cons_of_neg hq]⟩

/-- Helper: no substring occurrence in `l` means none in any prefix of `l`. -/
theorem containsTok_of_prefix_false (p l₁ t : Str)
    (h : containsTok p (l₁ ++ t) = false) : containsTok p l₁ = false := by
  by_contra hc
  rw [containsTok_append_right p l₁ t (by revert hc; cases containsTok p l₁ <;> simp)] at h
  cases h

/-- Helper: no substring occurrence survives JS `trim`. -/
theorem containsTok_jsTrim_false (p l : Str) (h : containsTok p l = false) :
    containsTok p (jsTrim l) = false := by
  have h1 : containsTok p (l.dropWhile isWsChar) = false :=
    containsTok_dropWhile_false p isWsChar l h
  rcases exists_append_dropWhile isWsChar (l.dropWhile isWsChar).reverse with ⟨s, hs⟩
  have hsplit : jsTrim l ++ s.reverse = l.dropWhile isWsChar := by
    have := congrArg List.reverse hs
    simpa [jsTrim, List.reverse_append] using this
  exact containsTok_of_prefix_false p (jsTrim l) s.reverse (by rwa [hsplit])

/-- Helper: a successful directive scan implies the opener occurs in the
text. -/
theorem scanDir_some_contains (tok : Str) :
    ∀ (l : Str) (x : Str × Str × Str), scanDir tok l = some x →
      containsTok tok l = true := by
  intro l
  induction l with
  | nil => intro x h; simp [scanDir] at h
  | cons c rest ih =>
    intro x h
    simp only [scanDir] at h
    by_cases hp : isPre tok (c :: rest) = true
    · simp [containsTok, hp]
    · rw [if_neg hp] at h
      simp only [containsTok, Bool.or_eq_true]
      cases hs : scanDir tok rest with
      | none => rw [hs] at h; simp at h
      | some y => exact Or.inr (ih y hs)

/-- Counterexample to C3: the sticker lookup is by id over the *whole*
stickers table, not the responder's own inventory.  Here responder `char9`
owns no stickers at all, yet the directive `[sticker:s1]` naming a sticker
owned by `user` is stripped and a sticker fragment with that foreign URL is
emitted. -/
theorem c3_counterexample :
    (let table : List Sticker := [⟨"s1".toList, "user", "data:u1".toList⟩]
     (table.filter (fun s => s.owner == "char9")) = [] ∧
     processPart table false (fun _ => none) 0 "char9" 0 "看 [sticker:s1]".toList
       = [⟨"text", "char9", "看".toList, 0⟩, ⟨"sticker", "char9", "data:u1".toList, 200⟩]) := by
  exact ⟨rfl, by decide⟩

/-- Claim C3 (amended): a dialogue fragment's `[sticker:<id>]` directive is
resolved against the *global* sticker store: when some stored sticker (of
any owner) has that id, the directive is stripped and a separate `sticker`
fragment carrying that sticker's stored URL is emitted; when no stored
sticker has that id, the fragment text is left untouched and no sticker
fragment is emitted. -/
theorem c3_sticker_directive_amended (table : List Sticker) (imgGen : Str → Option Str)
    (imgKey : Bool) (now : Int) (rid : String) (i : Nat) (p before sid after : Str)
    (hne : jsTrim p ≠ [])
    (himg : containsTok imgTok (jsTrim p) = false)
    (hscan : scanDir stTok (jsTrim p) = some (before, sid, after)) :
    (∀ url : Str, stickerById table sid = some url →
      processPart table imgKey imgGen now rid i p
        = (if jsTrim (before ++ after) ≠ [] then
             [⟨"text", rid, jsTrim (before ++ after), now + (i : Int) * 500⟩]
           else [])
          ++ [⟨"sticker", rid, url, now + (i : Int) * 500 + 200⟩]) ∧
    (stickerById table sid = none →
      processPart table imgKey imgGen now rid i p
        = [⟨"text", rid, jsTrim p, now + (i : Int) * 500⟩]) := by
  have hcont : containsTok stTok (jsTrim p) = true :=
    scanDir_some_contains stTok (jsTrim p) _ hscan
  constructor
  · intro url hfound
    simp only [processPart, if_neg (by simpa using hne), himg, Bool.false_eq_true, if_false,
      hcont, if_true, hscan, hfound]
    simp
  · intro hnotfound
    simp only [processPart, if_neg (by simpa using hne), himg, Bool.false_eq_true, if_false,
      hcont, if_true, hscan, hnotfound]
    simp [hne]

/-- Witness for C3 (amended): both branches at concrete fragments — a
matching id yields the stripped text plus a sticker fragment; a missing id
leaves the directive untouched with no sticker fragment. -/
theorem c3_sticker_directive_amended_witness :
    processPart [⟨"a1".toList, "c7", "data:s".toList⟩] false (fun _ => none) 0 "c7" 0
        "嗯 [sticker:a1]".toList
      = [⟨"text", "c7", "嗯".toList, 0⟩, ⟨"sticker", "c7", "data:s".toList, 200⟩] ∧
    processPart [] false (fun _ => none) 0 "c7" 0 "嗯 [sticker:a1]".toList
      = [⟨"text", "c7", "嗯 [sticker:a1]".toList, 0⟩] := by
  constructor
  · have h := (c3_sticker_directive_amended [⟨"a1".toList, "c7", "data:s".toList⟩]
      (fun _ => none) false 0 "c7" 0 "嗯 [sticker:a1]".toList
      "嗯 ".toList "a1".toList [] (by decide) (by decide) (by decide)).1
      "data:s".toList (by decide)
    rw [h]; decide
  · have h := (c3_sticker_directive_amended [] (fun _ => none) false 0 "c7" 0
      "嗯 [sticker:a1]".toList "嗯 ".toList "a1".toList [] (by decide) (by decide)
      (by decide)).2 (by decide)
    rw [h]; decide

/-- Step: the splitter on the empty string. -/
theorem splitNextAux_nil (skip : Bool) (acc : Str) : splitNextAux skip acc [] = [acc] := by
  cases skip <;> rfl

/-- Step: a literal `[NEXT]` at the head is a separator. -/
theorem splitNextAux_next (skip : Bool) (acc rest : Str) :
    splitNextAux skip acc ('[' :: 'N' :: 'E' :: 'X' :: 'T' :: ']' :: rest)
      = acc :: splitNextAux false [] rest := by
  cases skip <;> rfl

/-- Step: outside skip mode, two newlines at the head start a separator and
enter newline-skipping mode. -/
theorem splitNextAux_nl2 (acc rest : Str) :
    splitNextAux false acc ('\n' :: '\n' :: rest) = acc :: splitNextAux true [] rest := rfl

/-- Step: an ordinary head character is accumulated. -/
theorem splitNextAux_cons_other (acc : Str) (c : Char) (rest : Str)
    (h2 : isPre nextTokL (c :: rest) = false)
    (h3 : ¬ (c = '\n' ∧ rest.head? = some '\n')) :
    splitNextAux false acc (c :: rest) = splitNextAux false (acc ++ [c]) rest := by
  rw [splitNextAux.eq_def]
  split
  all_goals simp_all [nextTokL, isPre]

/-- Helper: `[NEXT]` has no self-overlap, so an occurrence cannot start
inside a `[NEXT]`-free segment and finish inside the following separator. -/
theorem isPre_nextTok_cross_false (c : Char) (s' r : Str)
    (hnt : containsTok nextTokL (c :: s') = false) :
    isPre nextTokL (c :: (s' ++ nextTokL ++ r)) = false := by
  have h1 : isPre nextTokL (c :: s') = false := by
    simp only [containsTok, Bool.or_eq_false_iff] at hnt
    exact hnt.1
  rcases s' with _ | ⟨d1, _ | ⟨d2, _ | ⟨d3, _ | ⟨d4, _ | ⟨d5, s6⟩⟩⟩⟩⟩
  · simp [nextTokL, isPre]
  · simp [nextTokL, isPre]
  · simp [nextTokL, isPre]
  · simp [nextTokL, isPre]
  · simp [nextTokL, isPre]
  · simp only [nextTokL, isPre] at h1 ⊢
    simpa using h1

/-- Helper: a segment free of `[NEXT]` and of double newlines is consumed
whole when followed by a literal `[NEXT]` separator. -/
theorem splitNextAux_seg :
    ∀ (s : Str), containsTok nextTokL s = false → containsTok nl2Tok s = false →
      ∀ (acc r : Str),
        splitNextAux false acc (s ++ nextTokL ++ r) = (acc ++ s) :: splitNextAux false [] r := by
  intro s
  induction s with
  | nil =>
    intro _ _ acc r
    show splitNextAux false acc (nextTokL ++ r) = (acc ++ []) :: splitNextAux false [] r
    rw [show nextTokL ++ r = '[' :: 'N' :: 'E' :: 'X' :: 'T' :: ']' :: r from rfl]
    rw [splitNextAux_next]
    simp
  | cons c s' ih =>
    intro hnt hnn acc r
    have h2 : isPre nextTokL (c :: (s' ++ nextTokL ++ r)) = false :=
      isPre_nextTok_cross_false c s' r hnt
    have h3 : ¬ (c = '\n' ∧ (s' ++ nextTokL ++ r).head? = some '\n') := by
      cases s' with
      | nil => simp [nextTokL]
      | cons d s'' =>
        simp only [containsTok, Bool.or_eq_false_iff, nl2Tok, isPre] at hnn
        rcases hnn with ⟨hh, _⟩
        simp only [List.cons_append, List.head?_cons]
        rintro ⟨hc, hd⟩
        subst hc
        simp at hd
        subst hd
        simp at hh
    have hrec := splitNextAux_cons_other acc c (s' ++ nextTokL ++ r) h2 h3
    rw [show (c :: s') ++ nextTokL ++ r = c :: (s' ++ nextTokL ++ r) from by simp, hrec,
      ih (containsTok_cons_false _ _ _ hnt) (containsTok_cons_false _ _ _ hnn)]
    simp

/-- Helper: a segment free of `[NEXT]` and of double newlines is consumed
whole at the end of the input. -/
theorem splitNextAux_no_sep :
    ∀ (s : Str), containsTok nextTokL s = false → containsTok nl2Tok s = false →
      ∀ (acc : Str), splitNextAux false acc s = [acc ++ s] := by
  intro s
  induction s with
  | nil => intro _ _ acc; simp [splitNextAux_nil]
  | cons c s' ih =>
    intro hnt hnn acc
    have h2 : isPre nextTokL (c :: s') = false := by
      simp only [containsTok, Bool.or_eq_false_iff] at hnt
      exact hnt.1
    have h3 : ¬ (c = '\n' ∧ s'.head? = some '\n') := by
      cases s' with
      | nil => simp
      | cons d s'' =>
        simp only [containsTok, Bool.or_eq_false_iff, nl2Tok, isPre] at hnn
        rcases hnn with ⟨hh, _⟩
        simp only [List.head?_cons]
        rintro ⟨hc, hd⟩
        subst hc
        simp at hd
        subst hd
        simp at hh
    rw [splitNextAux_cons_other acc c s' h2 h3,
      ih (containsTok_cons_false _ _ _ hnt) (containsTok_cons_false _ _ _ hnn)]
    simp

/-- Helper: a directive-free part with nonempty trimmed text emits exactly
one text fragment timestamped `now + i*500`. -/
theorem processPart_clean (table : List Sticker) (imgKey : Bool) (imgGen : Str → Option Str)
    (now : Int) (rid : String) (i : Nat) (p : Str)
    (h1 : jsTrim p ≠ []) (h2 : containsTok imgTok (jsTrim p) = false)
    (h3 : containsTok stTok (jsTrim p) = false) :
    processPart table imgKey imgGen now rid i p
      = [⟨"text", rid, jsTrim p, now + (i : Int) * 500⟩] := by
  simp only [processPart, if_neg (by simpa using h1), h2, Bool.false_eq_true, if_false, h3]
  simp [h1]

/-- A dialogue segment suitable for the two-`[NEXT]` claim: free of the
`[NEXT]` separator, of blank-line separators and of directive openers, and
nonempty once trimmed. -/
def segClean (s : Str) : Bool :=
  !containsTok nextTokL s && !containsTok nl2Tok s && !(jsTrim s).isEmpty
    && !containsTok imgTok s && !containsTok stTok s

/-- Counterexample to C8: the output `a[NEXT][NEXT]b` contains exactly two
`[NEXT]` tokens and no directives, yet the parser emits only two text
fragments — the empty middle segment is filtered out. -/
theorem c8_counterexample :
    countNextTok "a[NEXT][NEXT]b".toList = 2 ∧
    containsTok imgTok "a[NEXT][NEXT]b".toList = false ∧
    containsTok stTok "a[NEXT][NEXT]b".toList = false ∧
    (respondOne [] false (fun _ => none) 0 ⟨"c1", "Alice".toList⟩ "chat"
        "a[NEXT][NEXT]b".toList).length = 2 := by
  refine ⟨by decide, by decide, by decide, by decide⟩

/-- Claim C8 (amended): for a raw output `s1[NEXT]s2[NEXT]s3` whose three
segments are free of `[NEXT]`, of blank-line paragraph breaks and of
directives, each nonempty after trimming — and which is untouched by the
leading-prefix cleanup and not in scenario mode — the parser produces
exactly three ordered text fragments (the trimmed segments) whose
timestamps `now`, `now+500`, `now+1000` are strictly increasing in emission
order. -/
theorem c8_next_split_amended (table : List Sticker) (imgKey : Bool)
    (imgGen : Str → Option Str) (now : Int) (r : GChar) (mode : String) (s1 s2 s3 : Str)
    (hmode : mode ≠ "scenario")
    (hclean : stripLeadName r.name
        (stripLeadBracket (s1 ++ nextTokL ++ s2 ++ nextTokL ++ s3))
      = s1 ++ nextTokL ++ s2 ++ nextTokL ++ s3)
    (h1 : segClean s1 = true) (h2 : segClean s2 = true) (h3 : segClean s3 = true) :
    respondOne table imgKey imgGen now r mode (s1 ++ nextTokL ++ s2 ++ nextTokL ++ s3)
      = [⟨"text", r.id, jsTrim s1, now⟩, ⟨"text", r.id, jsTrim s2, now + 500⟩,
         ⟨"text", r.id, jsTrim s3, now + 1000⟩] ∧
    List.Chain' (· < ·)
      ((respondOne table imgKey imgGen now r mode
          (s1 ++ nextTokL ++ s2 ++ nextTokL ++ s3)).map Fragment.timestamp) := by
  simp only [segClean, Bool.and_eq_true, Bool.not_eq_true'] at h1 h2 h3
  obtain ⟨⟨⟨⟨h1n, h1d⟩, h1e0⟩, h1i⟩, h1s⟩ := h1
  obtain ⟨⟨⟨⟨h2n, h2d⟩, h2e0⟩, h2i⟩, h2s⟩ := h2
  obtain ⟨⟨⟨⟨h3n, h3d⟩, h3e0⟩, h3i⟩, h3s⟩ := h3
  have h1e : jsTrim s1 ≠ [] := by simpa using h1e0
  have h2e : jsTrim s2 ≠ [] := by simpa using h2e0
  have h3e : jsTrim s3 ≠ [] := by simpa using h3e0
  have hsplit : splitMsg (s1 ++ nextTokL ++ s2 ++ nextTokL ++ s3) = [s1, s2, s3] := by
    show splitNextAux false [] (s1 ++ nextTokL ++ s2 ++ nextTokL ++ s3) = [s1, s2, s3]
    rw [show s1 ++ nextTokL ++ s2 ++ nextTokL ++ s3
        = s1 ++ nextTokL ++ (s2 ++ nextTokL ++ s3) from by simp]
    rw [splitNextAux_seg s1 h1n h1d [] (s2 ++ nextTokL ++ s3)]
    rw [splitNextAux_seg s2 h2n h2d [] s3]
    rw [splitNextAux_no_sep s3 h3n h3d []]
    simp
  have hmain : respondOne table imgKey imgGen now r mode
      (s1 ++ nextTokL ++ s2 ++ nextTokL ++ s3)
    = [⟨"text", r.id, jsTrim s1, now⟩, ⟨"text", r.id, jsTrim s2, now + 500⟩,
       ⟨"text", r.id, jsTrim s3, now + 1000⟩] := by
    simp only [respondOne, hclean, hmode, false_and, if_false, hsplit]
    rw [show ([s1, s2, s3].filter (fun p => !(jsTrim p).isEmpty)) = [s1, s2, s3] from by
      simp [List.filter, h1e0, h2e0, h3e0]]
    simp only [List.enum, List.enumFrom, List.map, List.flatten]
    rw [processPart_clean table imgKey imgGen now r.id 0 s1 h1e
        (containsTok_jsTrim_false _ _ h1i) (containsTok_jsTrim_false _ _ h1s),
      processPart_clean table imgKey imgGen now r.id 1 s2 h2e
        (containsTok_jsTrim_false _ _ h2i) (containsTok_jsTrim_false _ _ h2s),
      processPart_clean table imgKey imgGen now r.id 2 s3 h3e
        (containsTok_jsTrim_false _ _ h3i) (containsTok_jsTrim_false _ _ h3s)]
    norm_num
  refine ⟨hmain, ?_⟩
  rw [hmain]
  simp only [List.map_cons, List.map_nil, List.chain'_cons, List.chain'_singleton, and_true]
  omega

/-- Witness for C8 (amended) at a concrete two-`[NEXT]` output. -/
theorem c8_next_split_amended_witness :
    respondOne [] false (fun _ => none) 0 ⟨"c1", "Alice".toList⟩ "chat"
        ("你好".toList ++ nextTokL ++ "好的".toList ++ nextTokL ++ "嗯".toList)
      = [⟨"text", "c1", "你好".toList, 0⟩, ⟨"text", "c1", "好的".toList, 500⟩,
         ⟨"text", "c1", "嗯".toList, 1000⟩] := by
  have h := (c8_next_split_amended [] false (fun _ => none) 0 ⟨"c1", "Alice".toList⟩ "chat"
    "你好".toList "好的".toList "嗯".toList (by decide) (by decide) (by decide) (by decide)
    (by decide)).1
  rw [h]
  decide
